import Mathlib

/-!
Verification of the token-bucket rate limiter in
`google/cloud/sql/connector/rate_limiter.py` (class `AsyncRateLimiter`).

The limiter state is the four fields of the Python object; the monotonic
clock readings (`self._loop.time()`) and the durations actually slept by
`asyncio.sleep` are passed in explicitly, so every operation is a pure
function of the state and the observed clock values.  Python floats are
idealized as rationals.
-/

/-- State of an `AsyncRateLimiter` object: the fields set by `__init__`
and mutated by `_update_token_count` and `acquire`. -/
structure AsyncRateLimiter where
  rate : ℚ
  max_capacity : ℚ
  tokens : ℚ
  last_token_update : ℚ
deriving DecidableEq, Repr

/-- Embedding of `AsyncRateLimiter.__init__`: sets `self.rate`,
`self.max_capacity`, `self._tokens = max_capacity` and
`self._last_token_update = self._loop.time()` (the clock reading `now`).
The constructor body contains no validation and no `raise` statement. -/
def init (max_capacity rate now : ℚ) : AsyncRateLimiter :=
  { rate := rate
    max_capacity := max_capacity
    tokens := max_capacity
    last_token_update := now }

/-- The single error kind the specification attributes to construction. -/
inductive ConfigError where
  | invalidConfiguration
deriving DecidableEq, Repr

/-- Construction viewed as a fallible operation (a Python constructor either
raises or returns the object).  Since `__init__` contains no `raise`
statement, every parameter combination yields `Except.ok`. -/
def init_result (max_capacity rate now : ℚ) : Except ConfigError AsyncRateLimiter :=
  Except.ok (init max_capacity rate now)

/-- Embedding of `AsyncRateLimiter._update_token_count` at clock reading
`now`: `time_elapsed = now - self._last_token_update`,
`new_tokens = time_elapsed * self.rate`,
`self._tokens = min(new_tokens + self._tokens, self.max_capacity)`,
`self._last_token_update = now`. -/
def update_token_count (l : AsyncRateLimiter) (now : ℚ) : AsyncRateLimiter :=
  let time_elapsed := now - l.last_token_update
  let new_tokens := time_elapsed * l.rate
  { l with
    tokens := min (new_tokens + l.tokens) l.max_capacity
    last_token_update := now }

/-- Embedding of `AsyncRateLimiter._wait_for_next_token`: returns the
(unchanged) state together with the duration passed to `asyncio.sleep`
(`0` when the guard `token_deficit > 0` is false and no sleep happens):
`token_deficit = 1 - self._tokens`; if `token_deficit > 0` then
`wait_time = token_deficit / self.rate` is slept. -/
def wait_for_next_token (l : AsyncRateLimiter) : AsyncRateLimiter × ℚ :=
  let token_deficit := 1 - l.tokens
  if token_deficit > 0 then (l, token_deficit / l.rate) else (l, 0)

/-- Embedding of `AsyncRateLimiter.acquire` under the lock: `now1` is the
clock reading of the first `_update_token_count`; when the branch
`self._tokens < 1` is taken, `_wait_for_next_token` runs and `now2` is the
clock reading of the second `_update_token_count`; finally
`self._tokens -= 1`. -/
def acquire (l : AsyncRateLimiter) (now1 now2 : ℚ) : AsyncRateLimiter :=
  let l1 := update_token_count l now1
  let l2 :=
    if l1.tokens < 1 then
      update_token_count (wait_for_next_token l1).1 now2
    else l1
  { l2 with tokens := l2.tokens - 1 }

/-- The state produced by the final `_update_token_count` of a call to
`acquire` (just before the debit `self._tokens -= 1`). -/
def final_update_state (l : AsyncRateLimiter) (now1 now2 : ℚ) : AsyncRateLimiter :=
  let l1 := update_token_count l now1
  if l1.tokens < 1 then
    update_token_count (wait_for_next_token l1).1 now2
  else l1

/-- Clock assumptions for one call to `acquire`: the monotonic clock has not
gone backwards since the last update (`last_token_update ≤ now1`), and when
the wait branch is taken the sleep lasts at least the requested duration, so
the second clock reading satisfies `now1 + wait_time ≤ now2`. -/
def ValidCall (l : AsyncRateLimiter) (now1 now2 : ℚ) : Prop :=
  l.last_token_update ≤ now1 ∧
    ((update_token_count l now1).tokens < 1 →
      now1 + (wait_for_next_token (update_token_count l now1)).2 ≤ now2)

/-- Clock assumptions for a whole sequence of calls to `acquire`, each call
given by its pair of clock readings. -/
def ValidTrace : AsyncRateLimiter → List (ℚ × ℚ) → Prop
  | _, [] => True
  | l, (n1, n2) :: rest =>
      ValidCall l n1 n2 ∧ ValidTrace (acquire l n1 n2) rest

/-- All stored token counts observed along a sequence of calls to `acquire`:
the value after each `_update_token_count` and the value after the debit at
the end of each call. -/
def observed : AsyncRateLimiter → List (ℚ × ℚ) → List ℚ
  | _, [] => []
  | l, (n1, n2) :: rest =>
      let l1 := update_token_count l n1
      let updates :=
        if l1.tokens < 1 then
          [l1.tokens, (update_token_count (wait_for_next_token l1).1 n2).tokens]
        else [l1.tokens]
      updates ++ ((acquire l n1 n2).tokens :: observed (acquire l n1 n2) rest)

/-- Iterated `acquire` with both clock readings pinned at the same instant
`t` (back-to-back burst calls with no clock advance). -/
def acquire_iter (l : AsyncRateLimiter) (t : ℚ) : ℕ → AsyncRateLimiter
  | 0 => l
  | Nat.succ k => acquire (acquire_iter l t k) t t

/-! ## Basic lemmas about the operations -/

lemma wait_for_next_token_fst (l : AsyncRateLimiter) : (wait_for_next_token l).1 = l := by
  simp only [wait_for_next_token]
  split <;> rfl

lemma wait_for_next_token_snd_of_lt (l : AsyncRateLimiter) (h : l.tokens < 1) :
    (wait_for_next_token l).2 = (1 - l.tokens) / l.rate := by
  simp only [wait_for_next_token]
  rw [if_pos (by linarith)]

lemma wait_for_next_token_snd_of_ge (l : AsyncRateLimiter) (h : 1 ≤ l.tokens) :
    (wait_for_next_token l).2 = 0 := by
  simp only [wait_for_next_token]
  rw [if_neg (by simp only [not_lt]; linarith)]

lemma update_token_count_tokens (l : AsyncRateLimiter) (now : ℚ) :
    (update_token_count l now).tokens
      = min ((now - l.last_token_update) * l.rate + l.tokens) l.max_capacity := rfl

lemma update_token_count_nonneg (l : AsyncRateLimiter) (now : ℚ)
    (hr : 0 ≤ l.rate) (hc : 0 ≤ l.max_capacity) (ht : 0 ≤ l.tokens)
    (hn : l.last_token_update ≤ now) :
    0 ≤ (update_token_count l now).tokens := by
  rw [update_token_count_tokens]
  have h1 : 0 ≤ (now - l.last_token_update) * l.rate := mul_nonneg (by linarith) hr
  exact le_min (by linarith) hc

lemma update_token_count_le_cap (l : AsyncRateLimiter) (now : ℚ) :
    (update_token_count l now).tokens ≤ l.max_capacity := by
  rw [update_token_count_tokens]
  exact min_le_right _ _

lemma update_after_wait_ge_one (l : AsyncRateLimiter) (n : ℚ)
    (hr : 0 < l.rate) (hc : 1 ≤ l.max_capacity) (ht : l.tokens < 1)
    (hn : l.last_token_update + (wait_for_next_token l).2 ≤ n) :
    1 ≤ (update_token_count l n).tokens := by
  rw [update_token_count_tokens]
  rw [wait_for_next_token_snd_of_lt l ht] at hn
  have hd : (1 - l.tokens) / l.rate * l.rate = 1 - l.tokens :=
    div_mul_cancel₀ _ (ne_of_gt hr)
  have h2 : (1 - l.tokens) / l.rate ≤ n - l.last_token_update := by linarith
  have h3 : 1 - l.tokens ≤ (n - l.last_token_update) * l.rate := by
    calc 1 - l.tokens = (1 - l.tokens) / l.rate * l.rate := hd.symm
      _ ≤ (n - l.last_token_update) * l.rate :=
          mul_le_mul_of_nonneg_right h2 (le_of_lt hr)
  exact le_min (by linarith) hc

lemma acquire_of_lt (l : AsyncRateLimiter) (n1 n2 : ℚ)
    (h : (update_token_count l n1).tokens < 1) :
    acquire l n1 n2
      = { update_token_count (update_token_count l n1) n2 with
          tokens := (update_token_count (update_token_count l n1) n2).tokens - 1 } := by
  simp only [acquire, wait_for_next_token_fst, if_pos h]

lemma acquire_of_ge (l : AsyncRateLimiter) (n1 n2 : ℚ)
    (h : ¬ (update_token_count l n1).tokens < 1) :
    acquire l n1 n2
      = { update_token_count l n1 with tokens := (update_token_count l n1).tokens - 1 } := by
  simp only [acquire, if_neg h]

lemma acquire_rate (l : AsyncRateLimiter) (n1 n2 : ℚ) : (acquire l n1 n2).rate = l.rate := by
  by_cases h : (update_token_count l n1).tokens < 1
  · rw [acquire_of_lt l n1 n2 h]; rfl
  · rw [acquire_of_ge l n1 n2 h]; rfl

lemma acquire_max_capacity (l : AsyncRateLimiter) (n1 n2 : ℚ) :
    (acquire l n1 n2).max_capacity = l.max_capacity := by
  by_cases h : (update_token_count l n1).tokens < 1
  · rw [acquire_of_lt l n1 n2 h]; rfl
  · rw [acquire_of_ge l n1 n2 h]; rfl

lemma acquire_tokens_of_lt (l : AsyncRateLimiter) (n1 n2 : ℚ)
    (h : (update_token_count l n1).tokens < 1) :
    (acquire l n1 n2).tokens
      = (update_token_count (update_token_count l n1) n2).tokens - 1 := by
  rw [acquire_of_lt l n1 n2 h]

lemma acquire_tokens_of_ge (l : AsyncRateLimiter) (n1 n2 : ℚ)
    (h : ¬ (update_token_count l n1).tokens < 1) :
    (acquire l n1 n2).tokens = (update_token_count l n1).tokens - 1 := by
  rw [acquire_of_ge l n1 n2 h]

lemma observed_cons_of_lt (l : AsyncRateLimiter) (n1 n2 : ℚ) (rest : List (ℚ × ℚ))
    (h : (update_token_count l n1).tokens < 1) :
    observed l ((n1, n2) :: rest)
      = (update_token_count l n1).tokens
        :: (update_token_count (update_token_count l n1) n2).tokens
        :: (acquire l n1 n2).tokens :: observed (acquire l n1 n2) rest := by
  simp only [observed, wait_for_next_token_fst, if_pos h, List.cons_append, List.nil_append]

lemma observed_cons_of_ge (l : AsyncRateLimiter) (n1 n2 : ℚ) (rest : List (ℚ × ℚ))
    (h : ¬ (update_token_count l n1).tokens < 1) :
    observed l ((n1, n2) :: rest)
      = (update_token_count l n1).tokens
        :: (acquire l n1 n2).tokens :: observed (acquire l n1 n2) rest := by
  simp only [observed, if_neg h, List.cons_append, List.nil_append]

/-! ## Trace invariant -/

lemma observed_bounds (ts : List (ℚ × ℚ)) :
    ∀ l : AsyncRateLimiter, 0 < l.rate → 1 ≤ l.max_capacity →
      0 ≤ l.tokens → l.tokens ≤ l.max_capacity → ValidTrace l ts →
      ∀ x ∈ observed l ts, 0 ≤ x ∧ x ≤ l.max_capacity := by
  induction ts with
  | nil =>
      intro l _ _ _ _ _ x hx
      simp [observed] at hx
  | cons p rest ih =>
      obtain ⟨n1, n2⟩ := p
      intro l hr hc h0 hcap hv x hx
      obtain ⟨⟨hmono, hsleep⟩, hrest⟩ := hv
      have h1nonneg : 0 ≤ (update_token_count l n1).tokens :=
        update_token_count_nonneg l n1 (le_of_lt hr) (by linarith) h0 hmono
      have h1cap : (update_token_count l n1).tokens ≤ l.max_capacity :=
        update_token_count_le_cap l n1
      have hrrate : (acquire l n1 n2).rate = l.rate := acquire_rate l n1 n2
      have hrcap : (acquire l n1 n2).max_capacity = l.max_capacity :=
        acquire_max_capacity l n1 n2
      by_cases hbr : (update_token_count l n1).tokens < 1
      · have h2ge1 : 1 ≤ (update_token_count (update_token_count l n1) n2).tokens := by
          apply update_after_wait_ge_one
          · exact hr
          · exact hc
          · exact hbr
          · exact hsleep hbr
        have h2cap : (update_token_count (update_token_count l n1) n2).tokens
            ≤ l.max_capacity :=
          update_token_count_le_cap (update_token_count l n1) n2
        have hacqtok : (acquire l n1 n2).tokens
            = (update_token_count (update_token_count l n1) n2).tokens - 1 :=
          acquire_tokens_of_lt l n1 n2 hbr
        rw [observed_cons_of_lt l n1 n2 rest hbr] at hx
        simp only [List.mem_cons] at hx
        rcases hx with rfl | rfl | rfl | hx
        · exact ⟨h1nonneg, h1cap⟩
        · exact ⟨by linarith, h2cap⟩
        · rw [hacqtok]
          exact ⟨by linarith, by linarith⟩
        · have hrec := ih (acquire l n1 n2) (by rw [hrrate]; exact hr)
            (by rw [hrcap]; exact hc)
            (by rw [hacqtok]; linarith)
            (by rw [hacqtok, hrcap]; linarith)
            hrest x hx
          rw [hrcap] at hrec
          exact hrec
      · have hge : 1 ≤ (update_token_count l n1).tokens := not_lt.mp hbr
        have hacqtok : (acquire l n1 n2).tokens = (update_token_count l n1).tokens - 1 :=
          acquire_tokens_of_ge l n1 n2 hbr
        rw [observed_cons_of_ge l n1 n2 rest hbr] at hx
        simp only [List.mem_cons] at hx
        rcases hx with rfl | rfl | hx
        · exact ⟨h1nonneg, h1cap⟩
        · rw [hacqtok]
          exact ⟨by linarith, by linarith⟩
        · have hrec := ih (acquire l n1 n2) (by rw [hrrate]; exact hr)
            (by rw [hrcap]; exact hc)
            (by rw [hacqtok]; linarith)
            (by rw [hacqtok, hrcap]; linarith)
            hrest x hx
          rw [hrcap] at hrec
          exact hrec

/-! ## Claims -/

/-- C1: for every sequence of `acquire` calls on a limiter constructed with
`max_capacity ≥ 1` and `rate > 0`, under a monotonic clock and sleeps that
last at least the requested duration, the stored token count satisfies
`0 ≤ tokens ≤ max_capacity` immediately after every `_update_token_count`
and after the debit at the end of every `acquire`. -/
theorem C1_tokens_always_bounded (max_capacity rate t0 : ℚ) (ts : List (ℚ × ℚ))
    (hc : 1 ≤ max_capacity) (hr : 0 < rate)
    (hv : ValidTrace (init max_capacity rate t0) ts) :
    ∀ x ∈ observed (init max_capacity rate t0) ts, 0 ≤ x ∧ x ≤ max_capacity :=
  observed_bounds ts (init max_capacity rate t0) hr hc
    (by exact le_trans zero_le_one hc) le_rfl hv

/-- Witness for C1 at `max_capacity = 1`, `rate = 1`, `t0 = 0` and the
single-call trace `[(0, 1)]`: the token count stored after the debit is in
`[0, 1]`. -/
theorem C1_tokens_always_bounded_witness :
    0 ≤ (acquire (init 1 1 0) 0 1).tokens ∧ (acquire (init 1 1 0) 0 1).tokens ≤ 1 :=
  C1_tokens_always_bounded 1 1 0 [(0, 1)] le_rfl one_pos
    ⟨⟨le_rfl, fun h => absurd h (by norm_num [update_token_count, init])⟩, trivial⟩
    (acquire (init 1 1 0) 0 1).tokens
    (by
      rw [observed_cons_of_ge (init 1 1 0) 0 1 [] (by norm_num [update_token_count, init])]
      exact List.mem_cons_of_mem _ (List.mem_cons_self _ _))

/-- C2: `_update_token_count` at clock reading `now` sets `tokens` to
`min(tokens + (now - lastUpdate) * rate, maxCapacity)` and sets
`lastUpdate = now`; hence after an idle gap of duration
`D = now - lastUpdate` the next call observes
`tokens = min(maxCapacity, tokens_before + D * rate)` before any debit. -/
theorem C2_update_token_count_functional (l : AsyncRateLimiter) (now : ℚ) :
    (update_token_count l now).tokens
        = min (l.tokens + (now - l.last_token_update) * l.rate) l.max_capacity ∧
      (update_token_count l now).last_token_update = now ∧
      (update_token_count l now).tokens
        = min l.max_capacity (l.tokens + (now - l.last_token_update) * l.rate) := by
  refine ⟨?_, rfl, ?_⟩
  · rw [update_token_count_tokens, add_comm]
  · rw [update_token_count_tokens, add_comm, min_comm]

/-- C3 counterexample: constructing with `rate = 0` (violating `rate > 0`)
and `max_capacity = 0` (violating `maxCapacity ≥ 1`) succeeds instead of
failing with `InvalidConfiguration`: `__init__` performs no validation. -/
theorem C3_no_validation_counterexample :
    init_result 0 0 0
      = Except.ok { rate := 0, max_capacity := 0, tokens := 0, last_token_update := 0 } := rfl

/-- C3 amended: construction never fails — `__init__` contains no parameter
validation, so for every parameter combination (whether or not it satisfies
`rate > 0` and `maxCapacity ≥ 1`) construction succeeds, setting
`tokens = max_capacity` and `last_token_update = now`. -/
theorem C3_construction_never_fails (max_capacity rate now : ℚ) :
    init_result max_capacity rate now
      = Except.ok { rate := rate, max_capacity := max_capacity,
                    tokens := max_capacity, last_token_update := now } := rfl

/-- C4: when `tokens < 1`, `_wait_for_next_token` sleeps exactly
`(1 - tokens) / rate` and leaves the state (both `tokens` and
`last_token_update`) unchanged: it performs no re-check or re-update. -/
theorem C4_wait_exact_duration (l : AsyncRateLimiter) (h : l.tokens < 1) :
    wait_for_next_token l = (l, (1 - l.tokens) / l.rate) := by
  simp only [wait_for_next_token]
  rw [if_pos (by linarith)]

/-- Witness for C4 at `rate = 2`, `tokens = 1/2`: the sleep is
`(1 - 1/2) / 2` and the state is unchanged. -/
theorem C4_wait_exact_duration_witness :
    wait_for_next_token ⟨2, 1, 1/2, 0⟩ = (⟨2, 1, 1/2, 0⟩, (1 - (1 : ℚ)/2) / 2) :=
  C4_wait_exact_duration ⟨2, 1, 1/2, 0⟩ (by norm_num)

/-- C5: every `acquire` call debits exactly one token: the stored state on
release is the state computed by the final `_update_token_count` with its
token count decreased by exactly `1` (and no other field changed). -/
theorem C5_debit_exactly_one (l : AsyncRateLimiter) (now1 now2 : ℚ) :
    (acquire l now1 now2).tokens = (final_update_state l now1 now2).tokens - 1 ∧
      acquire l now1 now2
        = { final_update_state l now1 now2 with
            tokens := (final_update_state l now1 now2).tokens - 1 } :=
  ⟨rfl, rfl⟩

/-- C9: `rate` and `max_capacity` are fixed at construction: neither
`_update_token_count`, nor `_wait_for_next_token`, nor `acquire` changes
them. -/
theorem C9_rate_capacity_never_written (l : AsyncRateLimiter) (now now1 now2 : ℚ) :
    (update_token_count l now).rate = l.rate ∧
      (update_token_count l now).max_capacity = l.max_capacity ∧
      (wait_for_next_token l).1.rate = l.rate ∧
      (wait_for_next_token l).1.max_capacity = l.max_capacity ∧
      (acquire l now1 now2).rate = l.rate ∧
      (acquire l now1 now2).max_capacity = l.max_capacity := by
  refine ⟨rfl, rfl, ?_, ?_, acquire_rate l now1 now2, acquire_max_capacity l now1 now2⟩
  · rw [wait_for_next_token_fst]
  · rw [wait_for_next_token_fst]

/-- C10: called in a state with `tokens ≥ 1`, `_wait_for_next_token` is a
no-op: the guard `token_deficit > 0` is false, no sleep happens (slept
duration `0`), and the state is unchanged. -/
theorem C10_wait_noop_when_full (l : AsyncRateLimiter) (h : 1 ≤ l.tokens) :
    wait_for_next_token l = (l, 0) := by
  simp only [wait_for_next_token]
  rw [if_neg (by simp only [not_lt]; linarith)]

/-- Witness for C10 at `tokens = 2 ≥ 1`: no sleep, state unchanged. -/
theorem C10_wait_noop_when_full_witness :
    wait_for_next_token ⟨1, 2, 2, 0⟩ = (⟨1, 2, 2, 0⟩, 0) :=
  C10_wait_noop_when_full ⟨1, 2, 2, 0⟩ (by norm_num)

lemma acquire_iter_closed (N : ℕ) (r t0 : ℚ) :
    ∀ k : ℕ, k ≤ N →
      acquire_iter (init (N : ℚ) r t0) t0 k
        = ⟨r, (N : ℚ), (N : ℚ) - (k : ℚ), t0⟩ := by
  intro k
  induction k with
  | zero =>
      intro _
      simp [acquire_iter, init]
  | succ k ih =>
      intro hk
      have hk1 : k ≤ N := Nat.le_of_succ_le hk
      have hkN : (k : ℚ) + 1 ≤ (N : ℚ) := by exact_mod_cast hk
      rw [acquire_iter, ih hk1]
      have hupd : update_token_count ⟨r, (N : ℚ), (N : ℚ) - (k : ℚ), t0⟩ t0
          = ⟨r, (N : ℚ), (N : ℚ) - (k : ℚ), t0⟩ := by
        have hmin : min ((t0 - t0) * r + ((N : ℚ) - (k : ℚ))) (N : ℚ)
            = (N : ℚ) - (k : ℚ) := by
          rw [sub_self, zero_mul, zero_add]
          exact min_eq_left (sub_le_self _ (Nat.cast_nonneg k))
        simp [update_token_count, hmin]
      have hnotlt : ¬ (update_token_count ⟨r, (N : ℚ), (N : ℚ) - (k : ℚ), t0⟩ t0).tokens < 1 := by
        rw [hupd]
        simp only [not_lt]
        show (1 : ℚ) ≤ (N : ℚ) - (k : ℚ)
        linarith
      rw [acquire_of_ge _ t0 t0 hnotlt, hupd]
      simp only [AsyncRateLimiter.mk.injEq, eq_self_iff_true, true_and, and_true]
      push_cast
      ring

/-- C6: on a fresh limiter with `max_capacity = N ≥ 1` and `rate = r > 0`,
each of the first `N` `acquire` calls at one instant `t0` sees at least one
token after its update (so it never enters the wait branch); after the `N`
calls the stored count is `0`; the `(N+1)`th call at the same instant sees
fewer than one token after its update and computes a wait time of `1/r`. -/
theorem C6_burst_admission (N : ℕ) (r t0 : ℚ) (hN : 1 ≤ N) (hr : 0 < r) :
    (∀ k : ℕ, k < N →
        1 ≤ (update_token_count (acquire_iter (init (N : ℚ) r t0) t0 k) t0).tokens) ∧
      (acquire_iter (init (N : ℚ) r t0) t0 N).tokens = 0 ∧
      (update_token_count (acquire_iter (init (N : ℚ) r t0) t0 N) t0).tokens < 1 ∧
      (wait_for_next_token
          (update_token_count (acquire_iter (init (N : ℚ) r t0) t0 N) t0)).2 = 1 / r := by
  have hN0 : acquire_iter (init (N : ℚ) r t0) t0 N
      = ⟨r, (N : ℚ), (N : ℚ) - (N : ℚ), t0⟩ := acquire_iter_closed N r t0 N le_rfl
  have hupdN : (update_token_count (acquire_iter (init (N : ℚ) r t0) t0 N) t0).tokens = 0 := by
    rw [hN0, update_token_count_tokens]
    show min ((t0 - t0) * r + ((N : ℚ) - (N : ℚ))) (N : ℚ) = 0
    rw [sub_self, zero_mul, zero_add, sub_self]
    exact min_eq_left (Nat.cast_nonneg N)
  have hlt1 : (update_token_count (acquire_iter (init (N : ℚ) r t0) t0 N) t0).tokens < 1 := by
    rw [hupdN]
    norm_num
  refine ⟨?_, ?_, hlt1, ?_⟩
  · intro k hk
    rw [acquire_iter_closed N r t0 k (le_of_lt hk), update_token_count_tokens]
    show (1 : ℚ) ≤ min ((t0 - t0) * r + ((N : ℚ) - (k : ℚ))) (N : ℚ)
    rw [sub_self, zero_mul, zero_add]
    have h1 : (k : ℚ) + 1 ≤ (N : ℚ) := by exact_mod_cast hk
    have h2 : (1 : ℚ) ≤ (N : ℚ) - (k : ℚ) := by linarith
    exact le_min h2 (le_trans h2 (sub_le_self _ (Nat.cast_nonneg k)))
  · rw [hN0]
    show (N : ℚ) - (N : ℚ) = 0
    exact sub_self _
  · rw [wait_for_next_token_snd_of_lt _ hlt1, hupdN, hN0]
    show (1 - 0 : ℚ) / r = 1 / r
    norm_num

/-- Witness for C6 at `N = 1`, `r = 1`, `t0 = 0`: the first call sees one
token, after it the count is `0`, and the second call at the same instant
sees fewer than one token with a computed wait time of `1/1`. -/
theorem C6_burst_admission_witness :
    1 ≤ (update_token_count (acquire_iter (init ((1 : ℕ) : ℚ) 1 0) 0 0) 0).tokens ∧
      (acquire_iter (init ((1 : ℕ) : ℚ) 1 0) 0 1).tokens = 0 ∧
      (update_token_count (acquire_iter (init ((1 : ℕ) : ℚ) 1 0) 0 1) 0).tokens < 1 ∧
      (wait_for_next_token
          (update_token_count (acquire_iter (init ((1 : ℕ) : ℚ) 1 0) 0 1) 0)).2 = 1 / 1 :=
  ⟨(C6_burst_admission 1 1 0 (by norm_num) (by norm_num)).1 0 (by norm_num),
    (C6_burst_admission 1 1 0 (by norm_num) (by norm_num)).2.1,
    (C6_burst_admission 1 1 0 (by norm_num) (by norm_num)).2.2.1,
    (C6_burst_admission 1 1 0 (by norm_num) (by norm_num)).2.2.2⟩

/-- C7: in `acquire` the wait branch runs at most once: when the first
update leaves `tokens < 1`, the caller waits, re-runs
`_update_token_count` exactly once and debits with no further re-check;
with `rate > 0`, `max_capacity ≥ 1` and a sleep lasting at least the
requested `(1 - tokens)/rate`, the second update yields at least one
token, so the debit cannot drive the stored count negative. -/
theorem C7_wait_branch_once_safe (l : AsyncRateLimiter) (now1 now2 : ℚ)
    (hr : 0 < l.rate) (hc : 1 ≤ l.max_capacity)
    (hlow : (update_token_count l now1).tokens < 1)
    (hsleep : now1 + (wait_for_next_token (update_token_count l now1)).2 ≤ now2) :
    1 ≤ (update_token_count (wait_for_next_token (update_token_count l now1)).1 now2).tokens ∧
      0 ≤ (acquire l now1 now2).tokens ∧
      acquire l now1 now2
        = { update_token_count (wait_for_next_token (update_token_count l now1)).1 now2 with
            tokens :=
              (update_token_count
                  (wait_for_next_token (update_token_count l now1)).1 now2).tokens - 1 } := by
  rw [wait_for_next_token_fst]
  have h1 : 1 ≤ (update_token_count (update_token_count l now1) now2).tokens := by
    apply update_after_wait_ge_one
    · exact hr
    · exact hc
    · exact hlow
    · exact hsleep
  have htok : (acquire l now1 now2).tokens
      = (update_token_count (update_token_count l now1) now2).tokens - 1 :=
    acquire_tokens_of_lt l now1 now2 hlow
  refine ⟨h1, ?_, acquire_of_lt l now1 now2 hlow⟩
  rw [htok]
  linarith

/-- Witness for C7 at `l = ⟨1, 1, 0, 0⟩`, `now1 = 0`, `now2 = 1`: the
second update reaches one token and the debit leaves a nonnegative count. -/
theorem C7_wait_branch_once_safe_witness :
    1 ≤ (update_token_count (wait_for_next_token (update_token_count ⟨1, 1, 0, 0⟩ 0)).1 1).tokens ∧
      0 ≤ (acquire ⟨1, 1, 0, 0⟩ 0 1).tokens ∧
      acquire ⟨1, 1, 0, 0⟩ 0 1
        = { update_token_count (wait_for_next_token (update_token_count ⟨1, 1, 0, 0⟩ 0)).1 1 with
            tokens :=
              (update_token_count
                  (wait_for_next_token (update_token_count ⟨1, 1, 0, 0⟩ 0)).1 1).tokens - 1 } :=
  C7_wait_branch_once_safe ⟨1, 1, 0, 0⟩ 0 1 (by norm_num) (by norm_num)
    (by norm_num [update_token_count])
    (by norm_num [update_token_count, wait_for_next_token])
